import Mathlib

/-!
Verification of the lesson-PDF question-answering pipeline of the
MegaMind-LMS backend (apps/courses/vector_utils.py, signals.py and the
LessonPDFQnA view in apps/courses/api/views.py).

The pipeline is embedded shallowly:
* embedding vectors are lists of integers (the claims under study are about
  counts, ordering and alignment, never about floating-point values);
* the FAISS IndexFlatL2 stored in a lesson's index file is modelled by the
  list of its stored vectors, and its search method by an exact
  nearest-neighbour scan that sorts by (squared distance, index) and pads
  the result with -1 labels when fewer than k vectors exist, as FAISS does;
* the per-lesson file pair written under vector_indexes/ is modelled by the
  FS structure mapping a lesson id to the optional contents of
  lesson_<id>.index and lesson_<id>_chunks.pkl;
* Python list subscripting text_chunks[i] (including negative indices) is
  modelled by pyGet, and a raised exception by the error side of Except.
-/

/-- Squared Euclidean distance between two vectors, the metric of
faiss.IndexFlatL2. -/
def sqDist (q v : List Int) : Int :=
  (List.zipWith (fun a b => (a - b) * (a - b)) q v).foldr (· + ·) 0

/-- Comparison used by the FAISS search model: ascending squared distance,
ties broken by lowest stored index. -/
def distLe (p q : Int × Nat) : Bool :=
  p.1 < q.1 || (p.1 = q.1 && p.2 ≤ q.2)

/-- Ordered insertion for the exact-scan sort. -/
def insertPair (x : Int × Nat) : List (Int × Nat) → List (Int × Nat)
  | [] => [x]
  | y :: ys => if distLe x y then x :: y :: ys else y :: insertPair x ys

/-- Insertion sort of (distance, index) pairs. -/
def sortPairs : List (Int × Nat) → List (Int × Nat)
  | [] => []
  | x :: xs => insertPair x (sortPairs xs)

/-- Model of faiss.IndexFlatL2.search for a single query vector: the indices
of the k nearest stored vectors in ascending (distance, index) order; when
fewer than k vectors are stored, FAISS pads the label array with -1. -/
def faissSearch (stored : List (List Int)) (q : List Int) (k : Nat) : List Int :=
  let pairs := stored.enum.map (fun p => (sqDist q p.2, p.1))
  let top := ((sortPairs pairs).map (fun p => (p.2 : Int))).take k
  top ++ List.replicate (k - top.length) (-1)

/-- Model of Python list subscripting text_chunks[i]: a non-negative index in
range selects that element, a negative index in range selects from the end,
anything else raises IndexError. -/
def pyGet (xs : List String) (i : Int) : Except String String :=
  if 0 ≤ i ∧ i < (xs.length : Int) then
    Except.ok (xs.getD i.toNat "")
  else if -(xs.length : Int) ≤ i ∧ i < 0 then
    Except.ok (xs.getD (i + (xs.length : Int)).toNat "")
  else
    Except.error "IndexError: list index out of range"

/-- The persisted index store: for each lesson id, the optional contents of
lesson_<id>.index (the stored vectors of the serialized FAISS index) and of
lesson_<id>_chunks.pkl (the pickled chunk-text list). -/
structure FS where
  indexFile : Nat → Option (List (List Int))
  chunksFile : Nat → Option (List String)

/-- Effect of faiss.write_index(index, index_path) on the store. -/
def FS.setIndex (fs : FS) (lid : Nat) (vecs : List (List Int)) : FS :=
  ⟨fun l => if l = lid then some vecs else fs.indexFile l, fs.chunksFile⟩

/-- Effect of pickle.dump(text_chunks, f) to chunks_path on the store. -/
def FS.setChunks (fs : FS) (lid : Nat) (cks : List String) : FS :=
  ⟨fs.indexFile, fun l => if l = lid then some cks else fs.chunksFile l⟩

/-- The user-facing sentinel returned by search_index when the lesson's
index file does not exist. -/
def notIndexedMsg : String :=
  "This lesson's PDF has not been indexed yet. Please upload it again or wait a moment and retry."

/-- The comprehension [text_chunks[i] for i in indices[0]] of search_index:
looks each FAISS label up in the chunk list, propagating the first raised
IndexError. -/
def retrieve_chunks (text_chunks : List String) : List Int → Except String (List String)
  | [] => Except.ok []
  | i :: is =>
    match pyGet text_chunks i with
    | Except.error e => Except.error e
    | Except.ok c =>
      match retrieve_chunks text_chunks is with
      | Except.error e => Except.error e
      | Except.ok cs => Except.ok (c :: cs)

/-- The list of relevant chunks computed by search_index once both files are
loaded: FAISS search on the question embedding followed by chunk lookup. -/
def search_index_core (embed : String → List Int) (stored : List (List Int))
    (text_chunks : List String) (question : String) (k : Nat) :
    Except String (List String) :=
  retrieve_chunks text_chunks (faissSearch stored (embed question) k)

/-- The separator "\n\n---\n\n" joining relevant chunks into the context. -/
def chunkSep : String := "\n\n---\n\n"

/-- Model of search_index(lesson_id, question, k): if the index file does not
exist, return the sentinel string; otherwise load both files (a missing
chunks file raises FileNotFoundError), search, and join the relevant chunks.
A raised exception is the error side of Except. -/
def search_index (embed : String → List Int) (fs : FS) (lesson_id : Nat)
    (question : String) (k : Nat) : Except String String :=
  match fs.indexFile lesson_id with
  | none => Except.ok notIndexedMsg
  | some stored =>
    match fs.chunksFile lesson_id with
    | none => Except.error "FileNotFoundError: chunks file missing"
    | some text_chunks =>
      match search_index_core embed stored text_chunks question k with
      | Except.error e => Except.error e
      | Except.ok relevant => Except.ok (String.intercalate chunkSep relevant)

/-- Outcome of page.extract_text() for one PDF page, as the caller sees it:
ok (some s) is extracted text s, ok none is Python None (no extractable
text), error e is a raised exception. -/
abbrev PdfPage := Except String (Option String)

/-- Model of the extraction loop
"".join(page.extract_text() or "" for page in reader.pages):
pages are processed in order, a page yielding None or text contributes
(page.extract_text() or ""), and a raised exception propagates, aborting
the whole join. -/
def extract_pdf_text : List PdfPage → Except String String
  | [] => Except.ok ""
  | p :: ps =>
    match p with
    | Except.error e => Except.error e
    | Except.ok o =>
      match extract_pdf_text ps with
      | Except.error e => Except.error e
      | Except.ok rest => Except.ok (o.getD "" ++ rest)

/-- Fuel-indexed splitting loop for the chunker model; fuel starts at the
character count, and every recursive step drops step ≥ 1 characters. -/
def chunksFromFuel (size step : Nat) : Nat → List Char → List (List Char)
  | 0, cs => [cs]
  | fuel + 1, cs =>
    if cs.length ≤ size ∨ step = 0 then [cs]
    else cs.take size :: chunksFromFuel size step fuel (cs.drop step)

/-- Splits a character list into windows of at most size characters, each
window after the first starting step = size - overlap characters after the
previous one. -/
def chunksFrom (size step : Nat) (cs : List Char) : List (List Char) :=
  chunksFromFuel size step cs.length cs

/-- Modelled from the spec: chunk_text delegates to langchain's
RecursiveCharacterTextSplitter, an external dependency whose code is not in
this repository. Following the spec's Chunker contract (4.2), the model
splits text into overlapping windows of at most chunk_size characters, each
window after the first overlapping the previous by chunk_overlap characters
of the source text (the spec's preferred natural-boundary splitting is a
heuristic refinement of these hard cuts). -/
def chunk_text (text : String) (chunk_size chunk_overlap : Nat) : List String :=
  if text = "" then []
  else (chunksFrom chunk_size (chunk_size - chunk_overlap) text.toList).map
    (fun cs => String.mk cs)

/-- Model of the guard "if not pdf_text.strip()": Python's strip yields a
falsy (empty) string exactly when every character of the text is
whitespace. -/
def isBlank (s : String) : Bool := s.toList.all Char.isWhitespace

/-- The lesson row observed by the pipeline: its course id and, when a PDF
file is attached, the pages of that PDF. -/
structure LessonModel where
  course_id : Nat
  pdf_file : Option (List PdfPage)

/-- External collaborators of create_and_save_index: the lesson table, the
sentence-transformer batch encode call (which may raise), and possible
faults of the two file writes (some e meaning the write raises e). -/
structure Env where
  lessons : Nat → Option LessonModel
  encode : List String → Except String (List (List Int))
  writeIndexFault : Option String
  writeChunksFault : Option String

/-- Exceptions that the try block of create_and_save_index can raise. -/
inductive IndexErr
  | doesNotExist
  | exc (e : String)
deriving DecidableEq

/-- Normal terminations of the try block of create_and_save_index. -/
inductive PipeOutcome
  | noPdf
  | emptyText
  | indexed
deriving DecidableEq

/-- How one call of create_and_save_index ended, mirroring its print
statements and except clauses. -/
inductive IndexOutcome
  | noLesson
  | noPdf
  | emptyText
  | indexed
  | failed (e : String)
deriving DecidableEq

/-- The try block of create_and_save_index (lines 36-72): look the lesson
up, short-circuit on a missing PDF, extract, short-circuit on
empty/whitespace-only text, chunk, encode, then write the index file and
the chunks file in that order. An error carries the store as already
mutated when the exception was raised (the index write persists even if
the chunks write then fails). -/
def index_pipeline (env : Env) (fs : FS) (lid : Nat) :
    Except (FS × IndexErr) (FS × PipeOutcome) :=
  match env.lessons lid with
  | none => Except.error (fs, IndexErr.doesNotExist)
  | some lesson =>
    match lesson.pdf_file with
    | none => Except.ok (fs, PipeOutcome.noPdf)
    | some pages =>
      match extract_pdf_text pages with
      | Except.error e => Except.error (fs, IndexErr.exc e)
      | Except.ok pdf_text =>
        if isBlank pdf_text then Except.ok (fs, PipeOutcome.emptyText)
        else
          let text_chunks := chunk_text pdf_text 1000 200
          match env.encode text_chunks with
          | Except.error e => Except.error (fs, IndexErr.exc e)
          | Except.ok embeddings =>
            match env.writeIndexFault with
            | some e => Except.error (fs, IndexErr.exc e)
            | none =>
              match env.writeChunksFault with
              | some e => Except.error (fs.setIndex lid embeddings, IndexErr.exc e)
              | none =>
                Except.ok ((fs.setIndex lid embeddings).setChunks lid text_chunks,
                  PipeOutcome.indexed)

/-- create_and_save_index: the try block plus its two except clauses, which
catch LessonModel.DoesNotExist and every other Exception, so the function
always returns normally. -/
def create_and_save_index (env : Env) (fs : FS) (lid : Nat) : FS × IndexOutcome :=
  match index_pipeline env fs lid with
  | Except.ok (fs2, PipeOutcome.noPdf) => (fs2, IndexOutcome.noPdf)
  | Except.ok (fs2, PipeOutcome.emptyText) => (fs2, IndexOutcome.emptyText)
  | Except.ok (fs2, PipeOutcome.indexed) => (fs2, IndexOutcome.indexed)
  | Except.error (fs2, IndexErr.doesNotExist) => (fs2, IndexOutcome.noLesson)
  | Except.error (fs2, IndexErr.exc e) => (fs2, IndexOutcome.failed e)

/-- The line printed for each outcome of create_and_save_index. -/
def indexLog (lid : Nat) : IndexOutcome → String
  | IndexOutcome.noLesson => "Lesson with id " ++ toString lid ++ " not found."
  | IndexOutcome.noPdf => "No PDF for lesson " ++ toString lid ++ ". Skipping indexing."
  | IndexOutcome.emptyText =>
    "PDF for lesson " ++ toString lid ++ " is empty or could not be read. Skipping."
  | IndexOutcome.indexed =>
    "Successfully indexed lesson " ++ toString lid ++ ". Index and chunks saved."
  | IndexOutcome.failed e =>
    "An error occurred during indexing for lesson " ++ toString lid ++ ": " ++ e

/-- The sequence of store states a concurrent reader can observe while the
save step of create_and_save_index (lines 68-70) runs: before any write,
after faiss.write_index, and after pickle.dump. There is no temporary
location or atomic rename. -/
def save_steps (fs : FS) (lid : Nat) (vecs : List (List Int)) (chunks : List String) :
    List FS :=
  [fs, fs.setIndex lid vecs, (fs.setIndex lid vecs).setChunks lid chunks]

/-- HTTP-level outcome of LessonPDFQnA.post. -/
inductive QnAResponse
  | notFound
  | badRequest (msg : String)
  | serverError (msg : String)
  | answer (s : String)
deriving DecidableEq

/-- Model of LessonPDFQnA.post: get_object_or_404 on (lesson_id, course_id),
400 when the lesson has no PDF, 400 when the question is missing or empty,
then search_index with the default k = 3 inside a try returning 500 on
exception, then the generation call inside a try returning 500 on
exception. -/
def lessonPDFQnA_post (embed : String → List Int) (gen : String → Except String String)
    (lessons : Nat → Option LessonModel) (fs : FS) (course_id lesson_id : Nat)
    (question : Option String) : QnAResponse :=
  match lessons lesson_id with
  | none => QnAResponse.notFound
  | some lesson =>
    if lesson.course_id ≠ course_id then QnAResponse.notFound
    else
      match lesson.pdf_file with
      | none => QnAResponse.badRequest "No PDF uploaded for this lesson."
      | some _ =>
      match question with
      | none => QnAResponse.badRequest "No question provided."
      | some q =>
        if q = "" then QnAResponse.badRequest "No question provided."
        else
          match search_index embed fs lesson_id q 3 with
          | Except.error e =>
            QnAResponse.serverError ("Failed to search the vector index: " ++ e)
          | Except.ok context =>
            match gen ("Using only the following context, please answer the question.\n\nContext:\n"
                ++ context ++ "\n\nQuestion: " ++ q ++ "\n\nAnswer:") with
            | Except.error e =>
              QnAResponse.serverError ("Failed to get a response from the AI model: " ++ e)
            | Except.ok ans => QnAResponse.answer ans

example :
    faissSearch [[0, 0], [3, 4]] [0, 0] 3 = [0, 1, -1] := by decide

example :
    search_index_core (fun _ => [0, 0]) [[0, 0], [3, 4]] ["A", "B"] "q" 3 =
      Except.ok ["A", "B", "B"] := by rfl

/-- C4: for every lesson id whose index has never been persisted, search_index
returns the user-facing sentinel string and raises no exception; the
not-indexed outcome is the ok side of the result, distinct from any raised
error. -/
theorem search_not_indexed_sentinel (embed : String → List Int) (fs : FS)
    (lid : Nat) (q : String) (k : Nat) (h : fs.indexFile lid = none) :
    search_index embed fs lid q k = Except.ok notIndexedMsg ∧
    ∀ e, search_index embed fs lid q k ≠ Except.error e := by
  constructor
  · simp [search_index, h]
  · intro e hc
    simp [search_index, h] at hc

theorem search_not_indexed_sentinel_witness :
    search_index (fun _ => [0]) ⟨fun _ => none, fun _ => none⟩ 7 "hi" 3 =
      Except.ok notIndexedMsg ∧
    ∀ e, search_index (fun _ => [0]) ⟨fun _ => none, fun _ => none⟩ 7 "hi" 3 ≠
      Except.error e :=
  search_not_indexed_sentinel (fun _ => [0]) ⟨fun _ => none, fun _ => none⟩ 7 "hi" 3 rfl

/-- C10: search_index decides the not-indexed outcome solely from the
existence of the lesson's index file; when the index file exists but the
chunks file is missing, it raises a generic exception (FileNotFoundError
from the open call) rather than returning the sentinel. -/
theorem search_missing_chunks_generic_error (embed : String → List Int) (fs : FS)
    (lid : Nat) (q : String) (k : Nat) (stored : List (List Int))
    (h1 : fs.indexFile lid = some stored) (h2 : fs.chunksFile lid = none) :
    search_index embed fs lid q k = Except.error "FileNotFoundError: chunks file missing" ∧
    search_index embed fs lid q k ≠ Except.ok notIndexedMsg := by
  constructor
  · simp [search_index, h1, h2]
  · intro hc
    simp [search_index, h1, h2] at hc

theorem search_missing_chunks_generic_error_witness :
    search_index (fun _ => [0]) ⟨fun l => if l = 1 then some [[0]] else none, fun _ => none⟩
      1 "hi" 3 = Except.error "FileNotFoundError: chunks file missing" ∧
    search_index (fun _ => [0]) ⟨fun l => if l = 1 then some [[0]] else none, fun _ => none⟩
      1 "hi" 3 ≠ Except.ok notIndexedMsg :=
  search_missing_chunks_generic_error (fun _ => [0])
    ⟨fun l => if l = 1 then some [[0]] else none, fun _ => none⟩ 1 "hi" 3 [[0]] rfl rfl

/-- C2: during a rebuild of lesson 1 (prior complete index: one vector with
chunk list ["old"]), the save step exposes an intermediate store state in
which the new index file is already published while the chunks file still
holds the old chunk list; a concurrent search_index on that state succeeds
and reads this mix of new structure and old chunks, rather than observing
the complete prior index or the not-indexed outcome. -/
theorem save_race_mixed_state_observable :
    ∃ fsMid,
      fsMid ∈ save_steps
        ⟨fun l => if l = 1 then some [[0]] else none,
         fun l => if l = 1 then some ["old"] else none⟩ 1 [[1]] ["new"] ∧
      fsMid.indexFile 1 = some [[1]] ∧
      fsMid.indexFile 1 ≠ some [[0]] ∧
      fsMid.chunksFile 1 = some ["old"] ∧
      search_index (fun _ => [0]) fsMid 1 "q" 1 = Except.ok "old" ∧
      search_index (fun _ => [0]) fsMid 1 "q" 1 ≠ Except.ok notIndexedMsg := by
  refine ⟨FS.setIndex
    ⟨fun l => if l = 1 then some [[0]] else none,
     fun l => if l = 1 then some ["old"] else none⟩ 1 [[1]], ?_, rfl, ?_, rfl, rfl, ?_⟩
  · simp [save_steps]
  · intro hc
    simp [FS.setIndex] at hc
  · intro hc
    rw [show search_index (fun _ => [0])
        (FS.setIndex ⟨fun l => if l = 1 then some [[0]] else none,
          fun l => if l = 1 then some ["old"] else none⟩ 1 [[1]]) 1 "q" 1 =
        Except.ok "old" from rfl] at hc
    injection hc with hs
    exact absurd hs (by decide)

/-- C5: every exception raised inside the try block of create_and_save_index
(extraction, chunking, embedding or persistence) is caught by its except
clause: the function returns normally with the failed outcome, and the
printed log line names the lesson id and the cause. -/
theorem indexing_exception_caught_and_logged (env : Env) (fs : FS) (lid : Nat)
    (fs2 : FS) (e : String)
    (h : index_pipeline env fs lid = Except.error (fs2, IndexErr.exc e)) :
    create_and_save_index env fs lid = (fs2, IndexOutcome.failed e) ∧
    indexLog lid (IndexOutcome.failed e) =
      "An error occurred during indexing for lesson " ++ toString lid ++ ": " ++ e := by
  constructor
  · simp [create_and_save_index, h]
  · rfl

theorem indexing_exception_caught_and_logged_witness :
    create_and_save_index
      ⟨fun _ => some ⟨0, some [Except.error "boom"]⟩, fun ts => Except.ok (ts.map (fun _ => [0])),
        none, none⟩
      ⟨fun _ => none, fun _ => none⟩ 5 =
      (⟨fun _ => none, fun _ => none⟩, IndexOutcome.failed "boom") ∧
    indexLog 5 (IndexOutcome.failed "boom") =
      "An error occurred during indexing for lesson " ++ toString 5 ++ ": " ++ "boom" :=
  indexing_exception_caught_and_logged
    ⟨fun _ => some ⟨0, some [Except.error "boom"]⟩, fun ts => Except.ok (ts.map (fun _ => [0])),
      none, none⟩
    ⟨fun _ => none, fun _ => none⟩ 5 ⟨fun _ => none, fun _ => none⟩ "boom" rfl

/-- C9: when the lesson exists but has no attached PDF, or its extracted text
is empty or whitespace-only, create_and_save_index returns normally with the
corresponding skip outcome and the store is left exactly as it was: no file
of any lesson is created, modified or deleted. -/
theorem index_noop_on_missing_or_empty_input (env : Env) (fs : FS) (lid : Nat)
    (lesson : LessonModel) (hl : env.lessons lid = some lesson) :
    (lesson.pdf_file = none →
      create_and_save_index env fs lid = (fs, IndexOutcome.noPdf)) ∧
    (∀ pages t, lesson.pdf_file = some pages → extract_pdf_text pages = Except.ok t →
      isBlank t = true →
      create_and_save_index env fs lid = (fs, IndexOutcome.emptyText)) := by
  constructor
  · intro h
    simp [create_and_save_index, index_pipeline, hl, h]
  · intro pages t hp he ht
    simp [create_and_save_index, index_pipeline, hl, hp, he, ht]

theorem index_noop_on_missing_or_empty_input_witness :
    create_and_save_index
      ⟨fun _ => some ⟨0, none⟩, fun ts => Except.ok (ts.map (fun _ => [0])), none, none⟩
      ⟨fun _ => none, fun _ => none⟩ 1 =
      (⟨fun _ => none, fun _ => none⟩, IndexOutcome.noPdf) ∧
    create_and_save_index
      ⟨fun _ => some ⟨0, some [Except.ok (some "  ")]⟩,
        fun ts => Except.ok (ts.map (fun _ => [0])), none, none⟩
      ⟨fun _ => none, fun _ => none⟩ 1 =
      (⟨fun _ => none, fun _ => none⟩, IndexOutcome.emptyText) :=
  ⟨(index_noop_on_missing_or_empty_input
      ⟨fun _ => some ⟨0, none⟩, fun ts => Except.ok (ts.map (fun _ => [0])), none, none⟩
      ⟨fun _ => none, fun _ => none⟩ 1 ⟨0, none⟩ rfl).1 rfl,
   (index_noop_on_missing_or_empty_input
      ⟨fun _ => some ⟨0, some [Except.ok (some "  ")]⟩,
        fun ts => Except.ok (ts.map (fun _ => [0])), none, none⟩
      ⟨fun _ => none, fun _ => none⟩ 1 ⟨0, some [Except.ok (some "  ")]⟩ rfl).2
      [Except.ok (some "  ")] "  " rfl rfl rfl⟩

/-- C7: on a lesson that exists in the course, the QnA endpoint returns the
no-PDF client error when the lesson has no attached PDF (the index store is
never consulted, so the answer is never the not-indexed sentinel), and the
no-question client error when a PDF is attached but the question is missing
or empty. -/
theorem qna_no_pdf_and_blank_question (embed : String → List Int)
    (gen : String → Except String String) (lessons : Nat → Option LessonModel)
    (fs : FS) (cid lid : Nat) (lesson : LessonModel) (q : Option String)
    (hl : lessons lid = some lesson) (hc : lesson.course_id = cid) :
    (lesson.pdf_file = none →
      lessonPDFQnA_post embed gen lessons fs cid lid q =
        QnAResponse.badRequest "No PDF uploaded for this lesson.") ∧
    (∀ pages, lesson.pdf_file = some pages → (q = none ∨ q = some "") →
      lessonPDFQnA_post embed gen lessons fs cid lid q =
        QnAResponse.badRequest "No question provided.") := by
  constructor
  · intro h
    simp [lessonPDFQnA_post, hl, hc, h]
  · intro pages hp hq
    rcases hq with hq | hq <;> simp [lessonPDFQnA_post, hl, hc, hp, hq]

theorem qna_no_pdf_and_blank_question_witness :
    lessonPDFQnA_post (fun _ => [0]) (fun _ => Except.ok "ans")
      (fun _ => some ⟨2, none⟩) ⟨fun _ => none, fun _ => none⟩ 2 9 none =
      QnAResponse.badRequest "No PDF uploaded for this lesson." ∧
    lessonPDFQnA_post (fun _ => [0]) (fun _ => Except.ok "ans")
      (fun _ => some ⟨2, some []⟩) ⟨fun _ => none, fun _ => none⟩ 2 9 (some "") =
      QnAResponse.badRequest "No question provided." :=
  ⟨(qna_no_pdf_and_blank_question (fun _ => [0]) (fun _ => Except.ok "ans")
      (fun _ => some ⟨2, none⟩) ⟨fun _ => none, fun _ => none⟩ 2 9 ⟨2, none⟩ none
      rfl rfl).1 rfl,
   (qna_no_pdf_and_blank_question (fun _ => [0]) (fun _ => Except.ok "ans")
      (fun _ => some ⟨2, some []⟩) ⟨fun _ => none, fun _ => none⟩ 2 9 ⟨2, some []⟩
      (some "") rfl rfl).2 [] rfl (Or.inr rfl)⟩

/-- Contribution of one page to the extracted text: the page's text when it
yields any, "" when it yields None or the empty string. -/
def pageContribution (p : PdfPage) : String :=
  match p with
  | Except.ok o => o.getD ""
  | Except.error _ => ""

/-- C3 counterexample: extraction of a three-page document whose middle
page raises does not contribute "" for that page and continue; the whole
extraction fails, so no text is produced for the document at all. -/
theorem extract_failing_page_aborts_document :
    extract_pdf_text
        [Except.ok (some "A"), Except.error "bad page", Except.ok (some "B")] =
      Except.error "bad page" ∧
    ∀ s, extract_pdf_text
        [Except.ok (some "A"), Except.error "bad page", Except.ok (some "B")] ≠
      Except.ok s := by
  refine ⟨rfl, fun s h => ?_⟩
  rw [show extract_pdf_text
      [Except.ok (some "A"), Except.error "bad page", Except.ok (some "B")] =
      Except.error "bad page" from rfl] at h
  exact Except.noConfusion h

/-- C3 amended: pages are processed in order and a page yielding no or empty
extractable text contributes the empty string, so long as no page raises; a
page whose extraction raises makes extraction of the whole document fail
with that exception (the first raising page wins), instead of contributing
the empty string. -/
theorem extract_pages_in_order_error_propagates (pages : List PdfPage) :
    ((∀ p ∈ pages, ∃ o, p = Except.ok o) →
      extract_pdf_text pages =
        Except.ok (pages.foldr (fun p acc => pageContribution p ++ acc) "")) ∧
    (∀ pre e post, pages = pre ++ Except.error e :: post →
      (∀ p ∈ pre, ∃ o, p = Except.ok o) →
      extract_pdf_text pages = Except.error e) := by
  constructor
  · intro hok
    induction pages with
    | nil => rfl
    | cons p ps ih =>
      obtain ⟨o, rfl⟩ := hok p (List.mem_cons_self p ps)
      have hrest := ih (fun x hx => hok x (List.mem_cons_of_mem _ hx))
      simp [extract_pdf_text, hrest, pageContribution]
  · intro pre e post hsplit hpre
    subst hsplit
    induction pre with
    | nil => rfl
    | cons p ps ih =>
      obtain ⟨o, rfl⟩ := hpre p (List.mem_cons_self p ps)
      have hrest := ih (fun x hx => hpre x (List.mem_cons_of_mem _ hx))
      simp [extract_pdf_text, hrest]

theorem extract_pages_in_order_error_propagates_witness :
    extract_pdf_text [Except.ok (some "A"), Except.ok none, Except.ok (some "B")] =
      Except.ok ([Except.ok (some "A"), Except.ok none,
        Except.ok (some "B")].foldr
          (fun p acc => pageContribution p ++ acc) "") ∧
    extract_pdf_text [Except.ok (some "A"), Except.error "bad xref"] =
      Except.error "bad xref" :=
  ⟨(extract_pages_in_order_error_propagates
      [Except.ok (some "A"), Except.ok none, Except.ok (some "B")]).1
      (by intro p hp
          simp only [List.mem_cons, List.not_mem_nil, or_false] at hp
          rcases hp with rfl | rfl | rfl <;> exact ⟨_, rfl⟩),
   (extract_pages_in_order_error_propagates
      [Except.ok (some "A"), Except.error "bad xref"]).2
      [Except.ok (some "A")] "bad xref" []
      rfl
      (by intro p hp
          simp only [List.mem_cons, List.not_mem_nil, or_false] at hp
          rcases hp with rfl
          exact ⟨_, rfl⟩)⟩

/-- A character list no longer than the window size is returned as the one
and only window, whatever the fuel. -/
theorem chunksFromFuel_short (size step fuel : Nat) (cs : List Char)
    (h : cs.length ≤ size) : chunksFromFuel size step fuel cs = [cs] := by
  cases fuel with
  | zero => rfl
  | succ n => simp [chunksFromFuel, h]

/-- Every window produced from a non-empty character list is non-empty,
provided the window size is positive, the step does not exceed the size,
and the fuel covers the list length. -/
theorem chunksFromFuel_ne_nil (size step : Nat) (h0 : 0 < size)
    (hstep : step ≤ size) :
    ∀ fuel cs, cs ≠ [] → cs.length ≤ fuel →
      ∀ c ∈ chunksFromFuel size step fuel cs, c ≠ [] := by
  intro fuel
  induction fuel with
  | zero =>
    intro cs hne hlen c hc
    interval_cases h : cs.length
    · exact absurd (List.length_eq_zero.mp h) hne
  | succ n ih =>
    intro cs hne hlen c hc
    by_cases hshort : cs.length ≤ size ∨ step = 0
    · rw [chunksFromFuel, if_pos hshort] at hc
      simp only [List.mem_singleton] at hc
      subst hc; exact hne
    · rw [chunksFromFuel, if_neg hshort] at hc
      push_neg at hshort
      obtain ⟨hbig, hstep0⟩ := hshort
      rcases List.mem_cons.mp hc with rfl | hc2
      · intro hnil
        rcases List.take_eq_nil_iff.mp hnil with h1 | h1
        · omega
        · exact hne h1
      · refine ih (cs.drop step) ?_ ?_ c hc2
        · intro hnil
          have := congrArg List.length hnil
          simp only [List.length_drop, List.length_nil] at this
          omega
        · simp only [List.length_drop]
          omega

/-- C8: with a positive chunk size and overlap at most the chunk size, a
non-empty text shorter than the chunk size is returned as exactly one
chunk, and no chunk produced from a non-empty text is empty. -/
theorem chunk_single_and_no_empty_chunks (text : String) (size ov : Nat)
    (h0 : 0 < size) (hne : text ≠ "") :
    (text.length < size → chunk_text text size ov = [text]) ∧
    ∀ c ∈ chunk_text text size ov, c ≠ "" := by
  constructor
  · intro hlen
    rw [chunk_text, if_neg hne, chunksFrom,
      chunksFromFuel_short size (size - ov) text.toList.length text.toList
        (le_of_lt hlen)]
    cases text
    rfl
  · intro c hc hcnil
    rw [chunk_text, if_neg hne] at hc
    rcases List.mem_map.mp hc with ⟨cs, hcs, rfl⟩
    have hcs_ne : cs ≠ [] := by
      refine chunksFromFuel_ne_nil size (size - ov) h0 (Nat.sub_le size ov)
        text.toList.length text.toList ?_ le_rfl cs hcs
      intro hnil
      apply hne
      cases text with
      | mk data =>
        simp only [String.toList] at hnil
        subst hnil
        rfl
    apply hcs_ne
    have : (String.mk cs).data = ("" : String).data := by rw [hcnil]
    simpa using this

theorem chunk_single_and_no_empty_chunks_witness :
    chunk_text "hi" 5 2 = ["hi"] ∧ ("hi" : String) ≠ "" :=
  ⟨(chunk_single_and_no_empty_chunks "hi" 5 2 (by decide) (by decide)).1 (by decide),
   (chunk_single_and_no_empty_chunks "hi" 5 2 (by decide) (by decide)).2 "hi" (by decide)⟩

/-- A run of the try block that ends with the indexed outcome went through
every stage: lesson found, PDF attached, extraction succeeded with
non-blank text, encoding succeeded, both writes succeeded, and the final
store holds exactly the index file then the chunks file written for this
lesson. -/
theorem index_pipeline_ok_indexed (env : Env) (fs : FS) (lid : Nat) (fs2 : FS)
    (h : index_pipeline env fs lid = Except.ok (fs2, PipeOutcome.indexed)) :
    ∃ lesson pages t embeds,
      env.lessons lid = some lesson ∧
      lesson.pdf_file = some pages ∧
      extract_pdf_text pages = Except.ok t ∧
      isBlank t = false ∧
      env.encode (chunk_text t 1000 200) = Except.ok embeds ∧
      env.writeIndexFault = none ∧
      env.writeChunksFault = none ∧
      fs2 = (fs.setIndex lid embeds).setChunks lid (chunk_text t 1000 200) := by
  cases hles : env.lessons lid with
  | none => simp [index_pipeline, hles] at h
  | some lesson =>
    cases hpdf : lesson.pdf_file with
    | none => simp [index_pipeline, hles, hpdf] at h
    | some pages =>
      cases hext : extract_pdf_text pages with
      | error e => simp [index_pipeline, hles, hpdf, hext] at h
      | ok t =>
        cases hblank : isBlank t with
        | true => simp [index_pipeline, hles, hpdf, hext, hblank] at h
        | false =>
          cases henc : env.encode (chunk_text t 1000 200) with
          | error e =>
            simp [index_pipeline, hles, hpdf, hext, hblank, henc] at h
          | ok embeds =>
            cases hwi : env.writeIndexFault with
            | some e =>
              simp [index_pipeline, hles, hpdf, hext, hblank, henc, hwi] at h
            | none =>
              cases hwc : env.writeChunksFault with
              | some e =>
                simp [index_pipeline, hles, hpdf, hext, hblank, henc, hwi, hwc] at h
              | none =>
                simp only [index_pipeline, hles, hpdf, hext, hblank, henc, hwi, hwc,
                  Bool.false_eq_true, if_false, Except.ok.injEq, Prod.mk.injEq,
                  and_true] at h
                exact ⟨lesson, pages, t, embeds, rfl, hpdf, hext, hblank, henc,
                  rfl, rfl, h.symm⟩

/-- C6: after a successful index build, the persisted chunk list and vector
list for the lesson have equal length and the i-th stored vector is the
embedding of the i-th stored chunk text, assuming the embedding model's
contract of one vector per input text in input order. -/
theorem index_vectors_aligned_with_chunks (env : Env) (fs : FS) (lid : Nat)
    (fs2 : FS) (embedF : String → List Int)
    (henc : ∀ ts, env.encode ts = Except.ok (ts.map embedF))
    (hrun : create_and_save_index env fs lid = (fs2, IndexOutcome.indexed)) :
    ∃ chunks vecs,
      fs2.chunksFile lid = some chunks ∧
      fs2.indexFile lid = some vecs ∧
      vecs.length = chunks.length ∧
      ∀ i (hi : i < vecs.length) (hc : i < chunks.length),
        vecs.get ⟨i, hi⟩ = embedF (chunks.get ⟨i, hc⟩) := by
  have hpipe : index_pipeline env fs lid = Except.ok (fs2, PipeOutcome.indexed) := by
    cases hp : index_pipeline env fs lid with
    | ok p =>
      obtain ⟨fs3, out⟩ := p
      cases out with
      | noPdf => simp [create_and_save_index, hp] at hrun
      | emptyText => simp [create_and_save_index, hp] at hrun
      | indexed =>
        simp [create_and_save_index, hp] at hrun
        rw [hrun]
    | error p =>
      obtain ⟨fs3, err⟩ := p
      cases err <;> simp [create_and_save_index, hp] at hrun
  obtain ⟨lesson, pages, t, embeds, _, _, _, _, hencE, _, _, hfs2⟩ :=
    index_pipeline_ok_indexed env fs lid fs2 hpipe
  have hembeds : embeds = (chunk_text t 1000 200).map embedF := by
    have := henc (chunk_text t 1000 200)
    rw [hencE] at this
    exact (Except.ok.injEq _ _).mp this
  refine ⟨chunk_text t 1000 200, embeds, ?_, ?_, ?_, ?_⟩
  · rw [hfs2]
    simp [FS.setChunks]
  · rw [hfs2]
    simp [FS.setChunks, FS.setIndex]
  · rw [hembeds]
    exact List.length_map _ _
  · intro i hi hc
    subst hembeds
    simp [List.get_eq_getElem, List.getElem_map]

theorem index_vectors_aligned_with_chunks_witness :
    ∃ chunks vecs,
      ((((⟨fun _ => none, fun _ => none⟩ : FS).setIndex 1
          ((chunk_text "hello" 1000 200).map (fun _ => ([7] : List Int)))).setChunks 1
          (chunk_text "hello" 1000 200)).chunksFile 1 = some chunks) ∧
      ((((⟨fun _ => none, fun _ => none⟩ : FS).setIndex 1
          ((chunk_text "hello" 1000 200).map (fun _ => ([7] : List Int)))).setChunks 1
          (chunk_text "hello" 1000 200)).indexFile 1 = some vecs) ∧
      vecs.length = chunks.length ∧
      ∀ i (hi : i < vecs.length) (hc : i < chunks.length),
        vecs.get ⟨i, hi⟩ = (fun _ => ([7] : List Int)) (chunks.get ⟨i, hc⟩) :=
  index_vectors_aligned_with_chunks
    ⟨fun _ => some ⟨0, some [Except.ok (some "hello")]⟩,
      fun ts => Except.ok (ts.map (fun _ => [7])), none, none⟩
    ⟨fun _ => none, fun _ => none⟩ 1
    ((((⟨fun _ => none, fun _ => none⟩ : FS).setIndex 1
        ((chunk_text "hello" 1000 200).map (fun _ => ([7] : List Int)))).setChunks 1
        (chunk_text "hello" 1000 200)))
    (fun _ => [7]) (fun _ => rfl) rfl

/-- Inserting into the sorted list of (distance, index) pairs permutes the
element onto the list. -/
theorem insertPair_perm (x : Int × Nat) (l : List (Int × Nat)) :
    (insertPair x l).Perm (x :: l) := by
  induction l with
  | nil => exact List.Perm.refl _
  | cons y ys ih =>
    by_cases h : distLe x y
    · rw [insertPair, if_pos h]
    · rw [insertPair, if_neg h]
      exact (ih.cons y).trans (List.Perm.swap x y ys)

/-- The exact-scan sort is a permutation of its input. -/
theorem sortPairs_perm (l : List (Int × Nat)) : (sortPairs l).Perm l := by
  induction l with
  | nil => exact List.Perm.refl _
  | cons x xs ih => exact (insertPair_perm x (sortPairs xs)).trans (ih.cons x)

/-- Chunk lookup over a list of in-range non-negative labels succeeds and
returns the corresponding chunk texts in label order. -/
theorem retrieve_chunks_all_valid (cs : List String) (is : List Int)
    (h : ∀ i ∈ is, 0 ≤ i ∧ i < (cs.length : Int)) :
    retrieve_chunks cs is = Except.ok (is.map (fun i => cs.getD i.toNat "")) := by
  induction is with
  | nil => rfl
  | cons i is2 ih =>
    have hi := h i (List.mem_cons_self i is2)
    have hpy : pyGet cs i = Except.ok (cs.getD i.toNat "") := by
      rw [pyGet, if_pos hi]
    simp [retrieve_chunks, hpy,
      ih (fun x hx => h x (List.mem_cons_of_mem _ hx))]

/-- Chunk lookup distributes over appending label lists when both halves
succeed. -/
theorem retrieve_chunks_append (cs : List String) (is js : List Int)
    (as bs : List String)
    (h1 : retrieve_chunks cs is = Except.ok as)
    (h2 : retrieve_chunks cs js = Except.ok bs) :
    retrieve_chunks cs (is ++ js) = Except.ok (as ++ bs) := by
  induction is generalizing as with
  | nil =>
    simp only [retrieve_chunks] at h1
    injection h1 with h1
    subst h1
    simpa using h2
  | cons i is2 ih =>
    rw [List.cons_append]
    simp only [retrieve_chunks] at h1 ⊢
    cases hp : pyGet cs i with
    | error e => rw [hp] at h1; exact Except.noConfusion h1
    | ok c =>
      rw [hp] at h1
      cases hr : retrieve_chunks cs is2 with
      | error e => rw [hr] at h1; exact Except.noConfusion h1
      | ok cs2 =>
        rw [hr] at h1
        injection h1 with h1
        subst h1
        rw [ih cs2 hr]
        rfl

/-- Python lookup at label -1 selects the last chunk. -/
theorem pyGet_neg_one (cs : List String) (h : 0 < cs.length) :
    pyGet cs (-1) = Except.ok (cs.getD (cs.length - 1) "") := by
  rw [pyGet, if_neg (by omega), if_pos (by constructor <;> omega)]
  have htn : ((-1 : Int) + (cs.length : Int)).toNat = cs.length - 1 := by omega
  rw [htn]

/-- Looking the padding label -1 up m times yields m copies of the last
chunk. -/
theorem retrieve_chunks_replicate_neg_one (cs : List String) (h : 0 < cs.length)
    (m : Nat) :
    retrieve_chunks cs (List.replicate m (-1)) =
      Except.ok (List.replicate m (cs.getD (cs.length - 1) "")) := by
  induction m with
  | zero => rfl
  | succ n ih =>
    simp [List.replicate_succ, retrieve_chunks, pyGet_neg_one cs h, ih]

/-- Indexing a list by the full range of its positions re-reads the list. -/
theorem map_getD_range (l : List String) (d : String) :
    (List.range l.length).map (fun i => l.getD i d) = l := by
  induction l with
  | nil => rfl
  | cons x xs ih =>
    rw [List.length_cons, List.range_succ_eq_map, List.map_cons, List.map_map]
    congr 1

/-- When at most k vectors are stored, the FAISS search result is a
permutation of all stored positions (cast to Int, in ascending distance
order) padded to length k with -1 labels. -/
theorem faissSearch_small (stored : List (List Int)) (qv : List Int) (k : Nat)
    (hk : stored.length ≤ k) :
    ∃ idxs : List Nat,
      faissSearch stored qv k =
        idxs.map (fun j : Nat => (j : Int)) ++ List.replicate (k - stored.length) (-1) ∧
      idxs.Perm (List.range stored.length) := by
  refine ⟨(sortPairs (stored.enum.map (fun p => (sqDist qv p.2, p.1)))).map Prod.snd,
    ?_, ?_⟩
  · have hslen :
        (sortPairs (stored.enum.map (fun p => (sqDist qv p.2, p.1)))).length =
          stored.length := by
      rw [(sortPairs_perm _).length_eq, List.length_map, List.enum_length]
    have hmm :
        (sortPairs (stored.enum.map (fun p => (sqDist qv p.2, p.1)))).map
            (fun p => ((p.2 : Nat) : Int)) =
          ((sortPairs (stored.enum.map (fun p => (sqDist qv p.2, p.1)))).map
            Prod.snd).map (fun j : Nat => (j : Int)) := by
      rw [List.map_map]
      rfl
    simp only [faissSearch]
    rw [List.take_of_length_le (by rw [List.length_map, hslen]; exact hk)]
    rw [hmm, List.length_map, List.length_map, hslen]
  · have h1 := (sortPairs_perm (stored.enum.map (fun p => (sqDist qv p.2, p.1)))).map
      Prod.snd
    have h2 : (stored.enum.map (fun p => (sqDist qv p.2, p.1))).map Prod.snd =
        List.range stored.length := by
      rw [List.map_map]
      exact List.enum_map_fst stored
    rwa [h2] at h1

/-- C1 counterexample: an index holding 2 vectors queried with k = 3 does
not return exactly the 2 stored chunks; FAISS pads the labels with -1,
which Python list indexing turns into a duplicate of the last chunk, so
the query returns 3 entries with a duplicate. -/
theorem search_k_exceeds_count_duplicates :
    search_index_core (fun _ => [0, 0]) [[0, 0], [3, 4]] ["A", "B"] "q" 3 =
      Except.ok ["A", "B", "B"] ∧
    ¬ (["A", "B", "B"] : List String).Nodup ∧
    (["A", "B", "B"] : List String) ≠ ["A", "B"] ∧
    search_index (fun _ => [0, 0])
      ⟨fun l => if l = 1 then some [[0, 0], [3, 4]] else none,
       fun l => if l = 1 then some ["A", "B"] else none⟩ 1 "q" 3 =
      Except.ok "A\n\n---\n\nB\n\n---\n\nB" :=
  ⟨rfl, by decide, by decide, rfl⟩

/-- C1 amended: when the persisted index holds n ≥ 1 aligned vectors and
chunks and k exceeds n, the query succeeds (no error) and returns exactly
k entries: the n stored chunks each exactly once (a permutation, listed in
ascending distance order), followed by k - n repetitions of the last
stored chunk, the image of FAISS's -1 padding labels under Python's
negative indexing. -/
theorem search_k_exceeds_count (embed : String → List Int) (fs : FS)
    (lid : Nat) (q : String) (k : Nat) (stored : List (List Int))
    (chunks : List String)
    (hidx : fs.indexFile lid = some stored)
    (hchk : fs.chunksFile lid = some chunks)
    (hlen : stored.length = chunks.length)
    (hpos : 0 < chunks.length)
    (hk : chunks.length < k) :
    ∃ r, search_index_core embed stored chunks q k = Except.ok r ∧
      search_index embed fs lid q k = Except.ok (String.intercalate chunkSep r) ∧
      r.length = k ∧
      (r.take chunks.length).Perm chunks ∧
      r.drop chunks.length =
        List.replicate (k - chunks.length) (chunks.getD (chunks.length - 1) "") := by
  obtain ⟨idxs, hfsearch, hperm⟩ := faissSearch_small stored (embed q) k (by omega)
  have hidxslen : idxs.length = chunks.length := by
    rw [hperm.length_eq, List.length_range, hlen]
  have hmemlt : ∀ j ∈ idxs, j < chunks.length := by
    intro j hj
    have := List.mem_range.mp (hperm.mem_iff.mp hj)
    omega
  have hA : retrieve_chunks chunks (idxs.map (fun j : Nat => (j : Int))) =
      Except.ok (idxs.map (fun j => chunks.getD j "")) := by
    rw [retrieve_chunks_all_valid chunks _ ?valid]
    case valid =>
      intro i hi
      rcases List.mem_map.mp hi with ⟨j, hj, rfl⟩
      have := hmemlt j hj
      constructor <;> omega
    rw [List.map_map]
    rfl
  have hB := retrieve_chunks_replicate_neg_one chunks hpos (k - chunks.length)
  have hstored : stored.length = chunks.length := hlen
  have hcore : search_index_core embed stored chunks q k =
      Except.ok (idxs.map (fun j => chunks.getD j "") ++
        List.replicate (k - chunks.length) (chunks.getD (chunks.length - 1) "")) := by
    rw [search_index_core, hfsearch, hstored]
    exact retrieve_chunks_append chunks _ _ _ _ hA hB
  have hAlen : (idxs.map (fun j => chunks.getD j "")).length = chunks.length := by
    rw [List.length_map, hidxslen]
  refine ⟨idxs.map (fun j => chunks.getD j "") ++
    List.replicate (k - chunks.length) (chunks.getD (chunks.length - 1) ""),
    hcore, ?_, ?_, ?_, ?_⟩
  · simp only [search_index, hidx, hchk, hcore]
  · rw [List.length_append, hAlen, List.length_replicate]
    omega
  · rw [List.take_left' hAlen]
    have hmapped := hperm.map (fun j => chunks.getD j "")
    rw [hlen] at hmapped
    rwa [map_getD_range chunks ""] at hmapped
  · rw [List.drop_left' hAlen]

theorem search_k_exceeds_count_witness :
    ∃ r, search_index_core (fun _ => [0, 0]) [[0, 0], [3, 4]] ["A", "B"] "q" 3 =
        Except.ok r ∧
      search_index (fun _ => [0, 0])
        ⟨fun l => if l = 1 then some [[0, 0], [3, 4]] else none,
         fun l => if l = 1 then some ["A", "B"] else none⟩ 1 "q" 3 =
        Except.ok (String.intercalate chunkSep r) ∧
      r.length = 3 ∧
      (r.take (["A", "B"] : List String).length).Perm ["A", "B"] ∧
      r.drop (["A", "B"] : List String).length =
        List.replicate (3 - (["A", "B"] : List String).length)
          ((["A", "B"] : List String).getD ((["A", "B"] : List String).length - 1) "") :=
  search_k_exceeds_count (fun _ => [0, 0])
    ⟨fun l => if l = 1 then some [[0, 0], [3, 4]] else none,
     fun l => if l = 1 then some ["A", "B"] else none⟩ 1 "q" 3
    [[0, 0], [3, 4]] ["A", "B"] rfl rfl rfl (by decide) (by decide)
